import Mathlib

/-!
Shallow embedding of the Mergington High School activities API
(`src/app.py`): the activity catalog, the category mapping, and the
`signup` / `remove` operations, together with proofs of the behavioural
properties of the service.

The catalog is a Python dict mapping activity names to records; a dict is
insertion-ordered with unique keys, so it is embedded as an association
list `List (String × Activity)`.  Raising `HTTPException(status_code, detail)`
is embedded as returning `Except.error ⟨status_code, detail⟩`; a Python
`KeyError` escaping a handler surfaces as a 500 response and is embedded as
`Except.error ⟨500, "KeyError"⟩`.
-/

namespace MHS

/-- An HTTP error response: status code and detail string, as produced by
`raise HTTPException(status_code=..., detail=...)`. -/
structure HTTPError where
  status_code : Nat
  detail : String
deriving Repr, DecidableEq

/-- Decidable equality for responses, so that concrete runs of the
operations can be checked by evaluation. -/
def exceptDecEq {E X : Type} [DecidableEq E] [DecidableEq X] :
    DecidableEq (Except E X)
  | Except.error a, Except.error b =>
    if h : a = b then isTrue (by rw [h])
    else isFalse (by intro hc; cases hc; exact h rfl)
  | Except.error a, Except.ok b => isFalse (by intro hc; cases hc)
  | Except.ok a, Except.error b => isFalse (by intro hc; cases hc)
  | Except.ok a, Except.ok b =>
    if h : a = b then isTrue (by rw [h])
    else isFalse (by intro hc; cases hc; exact h rfl)

instance {E X : Type} [DecidableEq E] [DecidableEq X] : DecidableEq (Except E X) :=
  exceptDecEq

/-- One activity record of the in-memory database: the fields of each value
of the `activities` dict in `app.py`. -/
structure Activity where
  description : String
  schedule : String
  max_participants : Nat
  participants : List String
deriving Repr, DecidableEq

/-- The catalog state: the `activities` dict, an insertion-ordered mapping
from activity name to record. -/
abbrev State := List (String × Activity)

/-- The static `activity_categories` dict of `app.py`, as an association list
in source order. -/
def activity_categories_list : List (String × String) :=
  [("Chess Club", "Sports"),
   ("Programming Class", "STEM"),
   ("Gym Class", "Sports"),
   ("Soccer Team", "Sports"),
   ("Swimming Club", "Sports"),
   ("Art Club", "Arts"),
   ("Drama Club", "Arts"),
   ("Debate Team", "Academic"),
   ("Science Olympiad", "STEM"),
   ("Book Club", "Arts")]

/-- Lookup in the `activity_categories` dict; `none` embeds a `KeyError`. -/
def activity_categories (name : String) : Option String :=
  activity_categories_list.lookup name

/-- The seed record for Chess Club. -/
def chessClub : Activity :=
  { description := "Learn strategies and compete in chess tournaments",
    schedule := "Fridays, 3:30 PM - 5:00 PM",
    max_participants := 12,
    participants := ["michael@mergington.edu", "daniel@mergington.edu"] }

/-- The seed record for Programming Class. -/
def programmingClass : Activity :=
  { description := "Learn programming fundamentals and build software projects",
    schedule := "Tuesdays and Thursdays, 3:30 PM - 4:30 PM",
    max_participants := 20,
    participants := ["emma@mergington.edu", "sophia@mergington.edu"] }

/-- The seed record for Gym Class. -/
def gymClass : Activity :=
  { description := "Physical education and sports activities",
    schedule := "Mondays, Wednesdays, Fridays, 2:00 PM - 3:00 PM",
    max_participants := 30,
    participants := ["john@mergington.edu", "olivia@mergington.edu"] }

/-- The seed record for Soccer Team. -/
def soccerTeam : Activity :=
  { description := "Join the varsity soccer team and compete against other schools",
    schedule := "Mondays and Wednesdays, 4:00 PM - 6:00 PM",
    max_participants := 25,
    participants := ["lucas@mergington.edu", "mia@mergington.edu"] }

/-- The seed record for Swimming Club. -/
def swimmingClub : Activity :=
  { description := "Practice swimming techniques and compete in swim meets",
    schedule := "Tuesdays and Thursdays, 4:00 PM - 5:30 PM",
    max_participants := 15,
    participants := ["ethan@mergington.edu", "ava@mergington.edu"] }

/-- The seed record for Art Club. -/
def artClub : Activity :=
  { description := "Explore various art mediums including painting, drawing, and sculpture",
    schedule := "Thursdays, 3:30 PM - 5:00 PM",
    max_participants := 18,
    participants := ["lily@mergington.edu", "noah@mergington.edu"] }

/-- The seed record for Drama Club. -/
def dramaClub : Activity :=
  { description := "Participate in theater productions and improve acting skills",
    schedule := "Wednesdays and Fridays, 3:30 PM - 5:30 PM",
    max_participants := 22,
    participants := ["isabella@mergington.edu", "james@mergington.edu"] }

/-- The seed record for Debate Team. -/
def debateTeam : Activity :=
  { description := "Develop critical thinking and public speaking through competitive debates",
    schedule := "Tuesdays, 4:00 PM - 5:30 PM",
    max_participants := 16,
    participants := ["alexander@mergington.edu", "charlotte@mergington.edu"] }

/-- The seed record for Science Olympiad. -/
def scienceOlympiad : Activity :=
  { description := "Compete in science and engineering challenges at regional competitions",
    schedule := "Mondays and Thursdays, 3:30 PM - 5:00 PM",
    max_participants := 20,
    participants := ["william@mergington.edu", "amelia@mergington.edu"] }

/-- The seed record for Book Club. -/
def bookClub : Activity :=
  { description := "Read and discuss classic and contemporary literature",
    schedule := "Fridays, 3:00 PM - 4:30 PM",
    max_participants := 15,
    participants := [] }

/-- The seed `activities` dict of `app.py`, in source order. -/
def activities : State :=
  [("Chess Club", chessClub),
   ("Programming Class", programmingClass),
   ("Gym Class", gymClass),
   ("Soccer Team", soccerTeam),
   ("Swimming Club", swimmingClub),
   ("Art Club", artClub),
   ("Drama Club", dramaClub),
   ("Debate Team", debateTeam),
   ("Science Olympiad", scienceOlympiad),
   ("Book Club", bookClub)]

/-- The participant list of a named activity in a state (`[]` if the name is
not a key); convenience accessor for stating properties. -/
def participantsOf (st : State) (name : String) : List String :=
  ((st.lookup name).map Activity.participants).getD []

/-- In-place mutation of `activities[name]["participants"]`: replace the
participant list of the pair keyed `name`, keeping dict order. -/
def setParticipants (st : State) (name : String) (l : List String) : State :=
  st.map (fun p => if p.1 = name then (p.1, { p.2 with participants := l }) else p)

/-- `get_student_activities(email)` from `app.py`: the names of the
activities whose participants contain `email`, in catalog iteration order. -/
def get_student_activities (st : State) (email : String) : List String :=
  (st.filter (fun p => decide (email ∈ p.2.participants))).map Prod.fst

/-- The success message of `signup_for_activity`. -/
def signupMsg (email activity_name : String) : String :=
  "Signed up " ++ email ++ " for " ++ activity_name

/-- The detail string of the enrollment-limit error. -/
def enrollmentLimitMsg : String :=
  "Student is already enrolled in 3 activities. Cannot enroll in more than 3 programs."

/-- The detail string of the category-conflict error. -/
def categoryConflictMsg (enrolled_activity new_category : String) : String :=
  "Student is already enrolled in \x27" ++ enrolled_activity ++
    "\x27 which is in the same category (" ++ new_category ++
    "). Cannot enroll in multiple programs of the same type."

/-- The `for enrolled_activity in enrolled_activities` loop of
`signup_for_activity`: raise the category-conflict error at the first
enrolled activity whose category equals `new_category`; a missing category
key would be a `KeyError`. -/
def checkCategory (new_category : String) : List String → Except HTTPError Unit
  | [] => Except.ok ()
  | a :: rest =>
    match activity_categories a with
    | none => Except.error ⟨500, "KeyError"⟩
    | some enrolled_category =>
      if enrolled_category = new_category then
        Except.error ⟨400, categoryConflictMsg a new_category⟩
      else
        checkCategory new_category rest

/-- `signup_for_activity(activity_name, email)` from `app.py`. -/
def signup_for_activity (st : State) (activity_name email : String) :
    Except HTTPError (State × String) :=
  match st.lookup activity_name with
  | none => Except.error ⟨404, "Activity not found"⟩
  | some activity =>
    if email ∈ activity.participants then
      Except.error ⟨400, "Student already signed up for this activity"⟩
    else
      let enrolled_activities := get_student_activities st email
      if 3 ≤ enrolled_activities.length then
        Except.error ⟨400, enrollmentLimitMsg⟩
      else
        match activity_categories activity_name with
        | none => Except.error ⟨500, "KeyError"⟩
        | some new_category =>
          match checkCategory new_category enrolled_activities with
          | Except.error e => Except.error e
          | Except.ok _ =>
            Except.ok (setParticipants st activity_name (activity.participants ++ [email]),
              signupMsg email activity_name)

/-- The success message of `remove_from_activity`. -/
def removeMsg (email activity_name : String) : String :=
  "Removed " ++ email ++ " from " ++ activity_name

/-- `remove_from_activity(activity_name, email)` from `app.py`;
`list.remove` deletes the first occurrence, embedded as `List.erase`. -/
def remove_from_activity (st : State) (activity_name email : String) :
    Except HTTPError (State × String) :=
  match st.lookup activity_name with
  | none => Except.error ⟨404, "Activity not found"⟩
  | some activity =>
    if email ∈ activity.participants then
      Except.ok (setParticipants st activity_name (activity.participants.erase email),
        removeMsg email activity_name)
    else
      Except.error ⟨400, "Student is not signed up for this activity"⟩

/-- A mutating API call: the two write endpoints of the service. -/
inductive Op where
  | signup (activity_name email : String)
  | remove (activity_name email : String)
deriving Repr, DecidableEq

/-- Apply one call to the shared catalog: on an error response the catalog
is unchanged. -/
def applyOp (st : State) : Op → State
  | Op.signup a e =>
    match signup_for_activity st a e with
    | Except.ok (st', _) => st'
    | Except.error _ => st
  | Op.remove a e =>
    match remove_from_activity st a e with
    | Except.ok (st', _) => st'
    | Except.error _ => st

/-- Run a sequence of calls from a starting state. -/
def runOps (st : State) (ops : List Op) : State :=
  ops.foldl applyOp st

/-- Number of activities of `st` in which `email` is enrolled. -/
def enrolledCount (st : State) (email : String) : Nat :=
  (get_student_activities st email).length

/-- Number of activities of category `c` in which `email` is enrolled. -/
def categoryCount (st : State) (email c : String) : Nat :=
  ((get_student_activities st email).filter
    (fun a => activity_categories a == some c)).length

/-- The enrollment rules as a state predicate: every email is in at most 3
activities and in at most one activity per category. -/
def enrollmentInvariant (st : State) : Prop :=
  ∀ email, enrolledCount st email ≤ 3 ∧ ∀ c, categoryCount st email c ≤ 1

/-- The catalog after the signup of `test@mergington.edu` for Book Club. -/
def bookClubSignedState : State :=
  setParticipants activities "Book Club" ["test@mergington.edu"]

/-- The Book Club record inside `bookClubSignedState`. -/
def bookClubSigned : Activity :=
  { bookClub with participants := ["test@mergington.edu"] }

/-- Fifteen distinct student emails, enough to fill Book Club to capacity. -/
def fifteenStudents : List String :=
  ["s01@mergington.edu", "s02@mergington.edu", "s03@mergington.edu",
   "s04@mergington.edu", "s05@mergington.edu", "s06@mergington.edu",
   "s07@mergington.edu", "s08@mergington.edu", "s09@mergington.edu",
   "s10@mergington.edu", "s11@mergington.edu", "s12@mergington.edu",
   "s13@mergington.edu", "s14@mergington.edu", "s15@mergington.edu"]

/-- A catalog where Book Club holds exactly `max_participants` students. -/
def fullBookClubState : State :=
  setParticipants activities "Book Club" fifteenStudents

/-- The Book Club record inside `fullBookClubState`. -/
def fullBookClub : Activity :=
  { bookClub with participants := fifteenStudents }

/-- A catalog where `kate@mergington.edu` is enrolled in three activities
of three different categories. -/
def threeEnrolledState : State :=
  setParticipants (setParticipants (setParticipants activities
    "Chess Club"
    ["michael@mergington.edu", "daniel@mergington.edu", "kate@mergington.edu"])
    "Programming Class"
    ["emma@mergington.edu", "sophia@mergington.edu", "kate@mergington.edu"])
    "Art Club"
    ["lily@mergington.edu", "noah@mergington.edu", "kate@mergington.edu"]

end MHS

namespace MHS

theorem lookup_some_mem {A : String} {act : Activity} :
    ∀ {st : State}, st.lookup A = some act → (A, act) ∈ st := by
  intro st
  induction st with
  | nil => intro h; simp [List.lookup] at h
  | cons p t ih =>
    intro h
    rcases p with ⟨k, v⟩
    rw [List.lookup_cons] at h
    by_cases hk : A = k
    · subst hk
      simp only [beq_self_eq_true] at h
      cases h
      exact List.mem_cons_self _ _
    · have hb : (A == k) = false := beq_eq_false_iff_ne.mpr hk
      rw [hb] at h
      exact List.mem_cons_of_mem _ (ih h)

theorem lookup_none_of_not_mem_keys {A : String} :
    ∀ {st : State}, A ∉ st.map Prod.fst → st.lookup A = none := by
  intro st
  induction st with
  | nil => intro _; rfl
  | cons p t ih =>
    intro h
    rcases p with ⟨k, v⟩
    rw [List.lookup_cons]
    have hk : A ≠ k := by
      intro hEq; exact h (by simp [hEq])
    have hb : (A == k) = false := beq_eq_false_iff_ne.mpr hk
    rw [hb]
    exact ih (fun hm => h (List.mem_cons_of_mem _ hm))

theorem lookup_split {A : String} {act : Activity} :
    ∀ {st : State}, st.lookup A = some act →
      ∃ l₁ l₂, st = l₁ ++ (A, act) :: l₂ ∧ ∀ p ∈ l₁, p.1 ≠ A := by
  intro st
  induction st with
  | nil => intro h; simp [List.lookup] at h
  | cons p t ih =>
    intro h
    rcases p with ⟨k, v⟩
    rw [List.lookup_cons] at h
    by_cases hk : A = k
    · subst hk
      simp only [beq_self_eq_true] at h
      cases h
      exact ⟨[], t, rfl, by simp⟩
    · have hb : (A == k) = false := beq_eq_false_iff_ne.mpr hk
      rw [hb] at h
      obtain ⟨l₁, l₂, hst, hl₁⟩ := ih h
      refine ⟨(k, v) :: l₁, l₂, by rw [hst]; rfl, ?_⟩
      intro p hp
      rcases List.mem_cons.mp hp with h1 | h1
      · subst h1; exact fun hc => hk hc.symm
      · exact hl₁ p h1

end MHS

namespace MHS

theorem keys_setParticipants (st : State) (A : String) (l : List String) :
    (setParticipants st A l).map Prod.fst = st.map Prod.fst := by
  unfold setParticipants
  rw [List.map_map]
  apply List.map_congr_left
  intro p _
  by_cases hp : p.1 = A <;> simp [hp]

theorem setParticipants_append (l₁ l₂ : State) (A : String) (l : List String) :
    setParticipants (l₁ ++ l₂) A l = setParticipants l₁ A l ++ setParticipants l₂ A l := by
  unfold setParticipants
  exact List.map_append _ _ _

theorem setParticipants_id_of_no_key {l₁ : State} {A : String} (l : List String)
    (h : ∀ p ∈ l₁, p.1 ≠ A) : setParticipants l₁ A l = l₁ := by
  unfold setParticipants
  rw [List.map_congr_left (g := id)]
  · exact List.map_id _
  · intro p hp
    simp [h p hp]

theorem setParticipants_split {l₁ l₂ : State} {A : String} (act : Activity) (l : List String)
    (h₁ : ∀ p ∈ l₁, p.1 ≠ A) (h₂ : ∀ p ∈ l₂, p.1 ≠ A) :
    setParticipants (l₁ ++ (A, act) :: l₂) A l =
      l₁ ++ (A, { act with participants := l }) :: l₂ := by
  rw [setParticipants_append]
  rw [setParticipants_id_of_no_key l h₁]
  congr 1
  show setParticipants ((A, act) :: l₂) A l = _
  unfold setParticipants
  rw [List.map_cons]
  congr 1
  · simp
  · rw [show List.map _ l₂ = setParticipants l₂ A l from rfl, setParticipants_id_of_no_key l h₂]

theorem lookup_setParticipants_self {st : State} {A : String} {act : Activity} (l : List String)
    (h : st.lookup A = some act) :
    (setParticipants st A l).lookup A = some { act with participants := l } := by
  induction st with
  | nil => simp [List.lookup] at h
  | cons p t ih =>
    rcases p with ⟨k, v⟩
    rw [List.lookup_cons] at h
    by_cases hk : A = k
    · subst hk
      simp only [beq_self_eq_true] at h
      cases h
      show List.lookup A (ite _ _ _ :: _) = _
      rw [if_pos rfl, List.lookup_cons]
      simp [beq_self_eq_true]
    · have hb : (A == k) = false := beq_eq_false_iff_ne.mpr hk
      rw [hb] at h
      show List.lookup A (ite _ _ _ :: _) = _
      rw [if_neg (fun hc => hk hc.symm), List.lookup_cons, hb]
      exact ih h

theorem lookup_setParticipants_other {st : State} {A B : String} (l : List String)
    (h : B ≠ A) : (setParticipants st A l).lookup B = st.lookup B := by
  induction st with
  | nil => rfl
  | cons p t ih =>
    rcases p with ⟨k, v⟩
    by_cases hk : k = A
    · show List.lookup B (ite _ _ _ :: _) = _
      rw [if_pos hk, List.lookup_cons, List.lookup_cons]
      have hb : (B == k) = false := beq_eq_false_iff_ne.mpr (by rw [hk]; exact h)
      rw [hb]
      exact ih
    · show List.lookup B (ite _ _ _ :: _) = _
      rw [if_neg hk, List.lookup_cons, List.lookup_cons]
      by_cases hbk : B = k
      · rw [beq_iff_eq.mpr hbk]
      · rw [beq_eq_false_iff_ne.mpr hbk]
        exact ih

theorem checkCategory_ok_of {cA : String} :
    ∀ {l : List String},
      (∀ a ∈ l, ∃ c, activity_categories a = some c ∧ c ≠ cA) →
      checkCategory cA l = Except.ok () := by
  intro l
  induction l with
  | nil => intro _; rfl
  | cons a rest ih =>
    intro h
    obtain ⟨c, hc, hne⟩ := h a (List.mem_cons_self _ _)
    unfold checkCategory
    rw [hc]
    simp only [if_neg hne]
    exact ih (fun b hb => h b (List.mem_cons_of_mem _ hb))

theorem checkCategory_ok_forall {cA : String} :
    ∀ {l : List String}, checkCategory cA l = Except.ok () →
      ∀ a ∈ l, activity_categories a ≠ some cA := by
  intro l
  induction l with
  | nil => intro _ a ha; simp at ha
  | cons b rest ih =>
    intro h a ha
    unfold checkCategory at h
    rcases hcb : activity_categories b with _ | c
    · simp only [hcb] at h
      exact absurd h (by simp)
    · simp only [hcb] at h
      by_cases hc : c = cA
      · simp only [if_pos hc] at h
        exact absurd h (by simp)
      · simp only [if_neg hc] at h
        rcases List.mem_cons.mp ha with h1 | h1
        · subst h1; rw [hcb]; intro hEq; exact hc (Option.some.inj hEq)
        · exact ih h a h1

theorem checkCategory_conflict {cA first : String} :
    ∀ {l : List String},
      (∀ a ∈ l, (activity_categories a).isSome) →
      l.find? (fun a => activity_categories a == some cA) = some first →
      checkCategory cA l = Except.error ⟨400, categoryConflictMsg first cA⟩ := by
  intro l
  induction l with
  | nil => intro _ hf; simp at hf
  | cons b rest ih =>
    intro hsome hf
    rw [List.find?_cons] at hf
    unfold checkCategory
    rcases hcb : activity_categories b with _ | c
    · exact absurd (hsome b (List.mem_cons_self _ _)) (by rw [hcb]; simp)
    · simp only [hcb]
      by_cases hc : c = cA
      · have hbt : (activity_categories b == some cA) = true := by
          rw [hcb, hc]; exact beq_self_eq_true _
        simp only [hbt] at hf
        cases hf
        rw [if_pos hc]
      · have hbt : (activity_categories b == some cA) = false := by
          rw [hcb]; exact beq_eq_false_iff_ne.mpr (fun hEq => hc (Option.some.inj hEq))
        simp only [hbt] at hf
        rw [if_neg hc]
        exact ih (fun a ha => hsome a (List.mem_cons_of_mem _ ha)) hf

end MHS

namespace MHS

theorem get_student_activities_append (l₁ l₂ : State) (e : String) :
    get_student_activities (l₁ ++ l₂) e =
      get_student_activities l₁ e ++ get_student_activities l₂ e := by
  unfold get_student_activities
  rw [List.filter_append, List.map_append]

theorem get_student_activities_cons (p : String × Activity) (t : State) (e : String) :
    get_student_activities (p :: t) e =
      (if e ∈ p.2.participants then [p.1] else []) ++ get_student_activities t e := by
  unfold get_student_activities
  rw [List.filter_cons]
  by_cases h : e ∈ p.2.participants
  · simp [h]
  · simp [h]

theorem mem_get_student_activities {st : State} {e a : String} :
    a ∈ get_student_activities st e → ∃ act, (a, act) ∈ st ∧ e ∈ act.participants := by
  unfold get_student_activities
  intro h
  obtain ⟨p, hp, hpa⟩ := List.mem_map.mp h
  have hpf := List.mem_filter.mp hp
  refine ⟨p.2, ?_, of_decide_eq_true hpf.2⟩
  rw [← hpa]
  exact hpf.1

theorem signup_ok_inversion {st st' : State} {A e msg : String}
    (h : signup_for_activity st A e = Except.ok (st', msg)) :
    ∃ act cA, st.lookup A = some act ∧ e ∉ act.participants ∧
      (get_student_activities st e).length < 3 ∧
      activity_categories A = some cA ∧
      (∀ a ∈ get_student_activities st e, activity_categories a ≠ some cA) ∧
      st' = setParticipants st A (act.participants ++ [e]) ∧
      msg = signupMsg e A := by
  unfold signup_for_activity at h
  rcases hlook : st.lookup A with _ | act
  · simp only [hlook] at h
    exact absurd h (by simp)
  · simp only [hlook] at h
    by_cases hmem : e ∈ act.participants
    · simp only [if_pos hmem] at h
      exact absurd h (by simp)
    · simp only [if_neg hmem] at h
      by_cases hlen : 3 ≤ (get_student_activities st e).length
      · simp only [if_pos hlen] at h
        exact absurd h (by simp)
      · simp only [if_neg hlen] at h
        rcases hcat : activity_categories A with _ | cA
        · simp only [hcat] at h
          exact absurd h (by simp)
        · simp only [hcat] at h
          rcases hchk : checkCategory cA (get_student_activities st e) with err | u
          · simp only [hchk] at h
            exact absurd h (by simp)
          · simp only [hchk] at h
            cases h
            exact ⟨act, cA, rfl, hmem, Nat.lt_of_not_le hlen, rfl,
              checkCategory_ok_forall hchk, rfl, rfl⟩

theorem remove_ok_inversion {st st' : State} {A e msg : String}
    (h : remove_from_activity st A e = Except.ok (st', msg)) :
    ∃ act, st.lookup A = some act ∧ e ∈ act.participants ∧
      st' = setParticipants st A (act.participants.erase e) ∧ msg = removeMsg e A := by
  unfold remove_from_activity at h
  rcases hlook : st.lookup A with _ | act
  · simp only [hlook] at h
    exact absurd h (by simp)
  · simp only [hlook] at h
    by_cases hmem : e ∈ act.participants
    · simp only [if_pos hmem] at h
      cases h
      exact ⟨act, rfl, hmem, rfl, rfl⟩
    · simp only [if_neg hmem] at h
      exact absurd h (by simp)

end MHS

namespace MHS

theorem erase_append_singleton_self {ps : List String} {e : String} (h : e ∉ ps) :
    (ps ++ [e]).erase e = ps := by
  induction ps with
  | nil => simp
  | cons a t ih =>
    have hne : ¬(a == e) := by
      simp only [beq_iff_eq]
      intro hEq; exact h (hEq ▸ List.mem_cons_self a t)
    rw [List.cons_append, List.erase_cons_tail hne,
      ih (fun hm => h (List.mem_cons_of_mem _ hm))]

theorem checkCategory_ok_from (st : State) (e cA : String)
    (hcats : ∀ p ∈ st, (activity_categories p.1).isSome)
    (hcat : ∀ a ∈ get_student_activities st e, activity_categories a ≠ some cA) :
    checkCategory cA (get_student_activities st e) = Except.ok () := by
  apply checkCategory_ok_of
  intro a ha
  obtain ⟨act', hmem', _⟩ := mem_get_student_activities ha
  obtain ⟨c, hc⟩ := Option.isSome_iff_exists.mp (hcats (a, act') hmem')
  refine ⟨c, hc, fun hEq => hcat a ha ?_⟩
  rw [hc, hEq]

theorem signup_ok_equation (st : State) (A e : String) (act : Activity) (cA : String)
    (hlook : st.lookup A = some act)
    (hmem : e ∉ act.participants)
    (hlen : (get_student_activities st e).length < 3)
    (hcA : activity_categories A = some cA)
    (hchk : checkCategory cA (get_student_activities st e) = Except.ok ()) :
    signup_for_activity st A e =
      Except.ok (setParticipants st A (act.participants ++ [e]), signupMsg e A) := by
  unfold signup_for_activity
  simp only [hlook, if_neg hmem, if_neg (Nat.not_le_of_lt hlen), hcA, hchk]

end MHS

namespace MHS

theorem nodup_append_singleton {l : List String} {e : String}
    (hnd : l.Nodup) (hmem : e ∉ l) : (l ++ [e]).Nodup := by
  rw [List.nodup_append]
  refine ⟨hnd, List.nodup_singleton e, ?_⟩
  intro x hx hxe
  rw [List.mem_singleton] at hxe
  exact hmem (hxe ▸ hx)

theorem mem_setParticipants_cases {st : State} {A : String} {l : List String}
    {p : String × Activity} (h : p ∈ setParticipants st A l) :
    p.2.participants = l ∨ p ∈ st := by
  unfold setParticipants at h
  obtain ⟨q, hq, hfq⟩ := List.mem_map.mp h
  by_cases hqA : q.1 = A
  · left; rw [← hfq]; simp [hqA]
  · right; rw [← hfq]; simp only [if_neg hqA]; exact hq

theorem keys_nodup_parts {st : State} (hnd : (st.map Prod.fst).Nodup)
    {A : String} {act : Activity} (hlook : st.lookup A = some act) :
    ∃ l₁ l₂, st = l₁ ++ (A, act) :: l₂ ∧ (∀ p ∈ l₁, p.1 ≠ A) ∧ (∀ p ∈ l₂, p.1 ≠ A) := by
  obtain ⟨l₁, l₂, hst, h₁⟩ := lookup_split hlook
  refine ⟨l₁, l₂, hst, h₁, ?_⟩
  intro p hp hpa
  rw [hst, List.map_append, List.map_cons] at hnd
  have h2 := (List.nodup_append.mp hnd).2.1
  rw [List.nodup_cons] at h2
  have h3 : p.1 ∈ l₂.map Prod.fst := List.mem_map_of_mem Prod.fst hp
  rw [hpa] at h3
  exact h2.1 h3

theorem gsa_split (l₁ l₂ : State) (A : String) (act : Activity) (E : String) :
    get_student_activities (l₁ ++ (A, act) :: l₂) E =
      get_student_activities l₁ E ++
        ((if E ∈ act.participants then [A] else []) ++ get_student_activities l₂ E) := by
  rw [get_student_activities_append, get_student_activities_cons]

theorem keys_applyOp (st : State) (op : Op) :
    (applyOp st op).map Prod.fst = st.map Prod.fst := by
  cases op with
  | signup A e =>
    show (match signup_for_activity st A e with
      | Except.ok (st', _) => st'
      | Except.error _ => st).map Prod.fst = _
    rcases hs : signup_for_activity st A e with err | ⟨st', msg⟩
    · rfl
    · obtain ⟨act, cA, hlook, _, _, _, _, hst, _⟩ := signup_ok_inversion hs
      rw [hst, keys_setParticipants]
  | remove A e =>
    show (match remove_from_activity st A e with
      | Except.ok (st', _) => st'
      | Except.error _ => st).map Prod.fst = _
    rcases hs : remove_from_activity st A e with err | ⟨st', msg⟩
    · rfl
    · obtain ⟨act, hlook, _, hst, _⟩ := remove_ok_inversion hs
      rw [hst, keys_setParticipants]

theorem applyOp_nodup {st : State} (op : Op)
    (h : ∀ p ∈ st, p.2.participants.Nodup) :
    ∀ p ∈ applyOp st op, p.2.participants.Nodup := by
  cases op with
  | signup A e =>
    show ∀ p ∈ (match signup_for_activity st A e with
      | Except.ok (st', _) => st'
      | Except.error _ => st), p.2.participants.Nodup
    rcases hs : signup_for_activity st A e with err | ⟨st', msg⟩
    · exact h
    · obtain ⟨act, cA, hlook, hmem, _, _, _, hst, _⟩ := signup_ok_inversion hs
      intro p hp
      rw [hst] at hp
      rcases mem_setParticipants_cases hp with h1 | h1
      · rw [h1]
        exact nodup_append_singleton (h (A, act) (lookup_some_mem hlook)) hmem
      · exact h p h1
  | remove A e =>
    show ∀ p ∈ (match remove_from_activity st A e with
      | Except.ok (st', _) => st'
      | Except.error _ => st), p.2.participants.Nodup
    rcases hs : remove_from_activity st A e with err | ⟨st', msg⟩
    · exact h
    · obtain ⟨act, hlook, hmem, hst, _⟩ := remove_ok_inversion hs
      intro p hp
      rw [hst] at hp
      rcases mem_setParticipants_cases hp with h1 | h1
      · rw [h1]
        exact List.Nodup.erase e (h (A, act) (lookup_some_mem hlook))
      · exact h p h1

theorem runOps_nodup (ops : List Op) : ∀ st : State,
    (∀ p ∈ st, p.2.participants.Nodup) →
    ∀ p ∈ runOps st ops, p.2.participants.Nodup := by
  induction ops with
  | nil => intro st h; exact h
  | cons op rest ih =>
    intro st h
    exact ih (applyOp st op) (applyOp_nodup op h)

end MHS

namespace MHS

theorem gsa_congr_of_eq {st st' : State} {E : String}
    (h : get_student_activities st' E = get_student_activities st E) :
    enrolledCount st' E = enrolledCount st E ∧
    ∀ c, categoryCount st' E c = categoryCount st E c := by
  constructor
  · unfold enrolledCount; rw [h]
  · intro c; unfold categoryCount; rw [h]

theorem signup_step_invariant {st st' : State} {A e msg : String}
    (hnd : (st.map Prod.fst).Nodup)
    (hinv : enrollmentInvariant st)
    (hs : signup_for_activity st A e = Except.ok (st', msg)) :
    enrollmentInvariant st' := by
  obtain ⟨act, cA, hlook, hmem, hlen, hcA, hforall, hst, _⟩ := signup_ok_inversion hs
  obtain ⟨l₁, l₂, hsplit, h₁, h₂⟩ := keys_nodup_parts hnd hlook
  have hst' : st' = l₁ ++ (A, { act with participants := act.participants ++ [e] }) :: l₂ := by
    rw [hst, hsplit, setParticipants_split act _ h₁ h₂]
  intro E
  have hold : get_student_activities st E =
      get_student_activities l₁ E ++
        ((if E ∈ act.participants then [A] else []) ++ get_student_activities l₂ E) := by
    rw [hsplit, gsa_split]
  have hnew : get_student_activities st' E =
      get_student_activities l₁ E ++
        ((if E ∈ act.participants ++ [e] then [A] else []) ++
          get_student_activities l₂ E) := by
    rw [hst', gsa_split]
  by_cases hE : E = e
  · subst hE
    rw [if_neg hmem] at hold
    rw [if_pos (by simp)] at hnew
    have hlen' : (get_student_activities st E).length =
        (get_student_activities l₁ E).length + (get_student_activities l₂ E).length := by
      rw [hold]; simp
    constructor
    · unfold enrolledCount
      rw [hnew]
      simp only [List.length_append, List.length_cons, List.length_nil]
      rw [hlen'] at hlen
      omega
    · intro c
      unfold categoryCount
      rw [hnew, List.filter_append, List.filter_append, List.length_append,
        List.length_append]
      by_cases hc : (activity_categories A == some c) = true
      · have hccA : c = cA := by
          have hac := beq_iff_eq.mp hc
          rw [hcA] at hac
          exact (Option.some.inj hac).symm
        rw [← hccA] at hforall
        have hmidT : ([A].filter (fun a => activity_categories a == some c)) = [A] := by
          simp [hc]
        have hz1 : (get_student_activities l₁ E).filter
            (fun a => activity_categories a == some c) = [] := by
          rw [List.filter_eq_nil_iff]
          intro a ha
          have hmem' : a ∈ get_student_activities st E := by
            rw [hold]; exact List.mem_append_left _ ha
          simp only [beq_iff_eq]
          exact hforall a hmem'
        have hz2 : (get_student_activities l₂ E).filter
            (fun a => activity_categories a == some c) = [] := by
          rw [List.filter_eq_nil_iff]
          intro a ha
          have hmem' : a ∈ get_student_activities st E := by
            rw [hold]; exact List.mem_append_right _ (List.mem_append_right _ ha)
          simp only [beq_iff_eq]
          exact hforall a hmem'
        rw [hz1, hz2, hmidT]
        simp
      · have hmidF : ([A].filter (fun a => activity_categories a == some c)) = [] := by
          simp only [Bool.not_eq_true] at hc
          simp [hc]
        rw [hmidF]
        have hOldEq : categoryCount st E c =
            ((get_student_activities l₁ E).filter
              (fun a => activity_categories a == some c)).length +
            ((get_student_activities l₂ E).filter
              (fun a => activity_categories a == some c)).length := by
          unfold categoryCount
          rw [hold, List.filter_append, List.filter_append, List.length_append,
            List.length_append]
          simp
        have hb := (hinv E).2 c
        rw [hOldEq] at hb
        simp only [List.length_nil]
        omega
  · have hmid : (E ∈ act.participants ++ [e]) ↔ (E ∈ act.participants) := by
      simp [hE]
    have heq : get_student_activities st' E = get_student_activities st E := by
      rw [hnew, hold]
      by_cases hEp : E ∈ act.participants
      · rw [if_pos hEp, if_pos (hmid.mpr hEp)]
      · rw [if_neg hEp, if_neg (fun hx => hEp (hmid.mp hx))]
    obtain ⟨hc1, hc2⟩ := gsa_congr_of_eq heq
    exact ⟨hc1 ▸ (hinv E).1, fun c => (hc2 c) ▸ (hinv E).2 c⟩

theorem remove_step_invariant {st st' : State} {A e msg : String}
    (hnd : (st.map Prod.fst).Nodup)
    (hinv : enrollmentInvariant st)
    (hs : remove_from_activity st A e = Except.ok (st', msg)) :
    enrollmentInvariant st' := by
  obtain ⟨act, hlook, hmem, hst, _⟩ := remove_ok_inversion hs
  obtain ⟨l₁, l₂, hsplit, h₁, h₂⟩ := keys_nodup_parts hnd hlook
  have hst' : st' = l₁ ++ (A, { act with participants := act.participants.erase e }) :: l₂ := by
    rw [hst, hsplit, setParticipants_split act _ h₁ h₂]
  intro E
  have hsub : List.Sublist (get_student_activities st' E) (get_student_activities st E) := by
    rw [hst', hsplit, gsa_split, gsa_split]
    apply List.Sublist.append (List.Sublist.refl _)
    apply List.Sublist.append
    · by_cases hE : E ∈ act.participants.erase e
      · rw [if_pos hE, if_pos (List.erase_subset _ _ hE)]
      · rw [if_neg hE]
        exact List.nil_sublist _
    · exact List.Sublist.refl _
  constructor
  · exact le_trans (List.Sublist.length_le hsub) (hinv E).1
  · intro c
    exact le_trans (List.Sublist.length_le (List.Sublist.filter _ hsub)) ((hinv E).2 c)

theorem applyOp_invariant {st : State} (op : Op)
    (hnd : (st.map Prod.fst).Nodup) (hinv : enrollmentInvariant st) :
    enrollmentInvariant (applyOp st op) := by
  cases op with
  | signup A e =>
    show enrollmentInvariant (match signup_for_activity st A e with
      | Except.ok (st', _) => st'
      | Except.error _ => st)
    rcases hs : signup_for_activity st A e with err | ⟨st', msg⟩
    · exact hinv
    · exact signup_step_invariant hnd hinv hs
  | remove A e =>
    show enrollmentInvariant (match remove_from_activity st A e with
      | Except.ok (st', _) => st'
      | Except.error _ => st)
    rcases hs : remove_from_activity st A e with err | ⟨st', msg⟩
    · exact hinv
    · exact remove_step_invariant hnd hinv hs

theorem runOps_invariant (ops : List Op) : ∀ st : State,
    (st.map Prod.fst).Nodup → enrollmentInvariant st →
    enrollmentInvariant (runOps st ops) := by
  induction ops with
  | nil => intro st _ h; exact h
  | cons op rest ih =>
    intro st hnd hinv
    exact ih (applyOp st op) (by rw [keys_applyOp]; exact hnd)
      (applyOp_invariant op hnd hinv)

theorem gsa_length_le_one (E : String) : ∀ st : State,
    (st.map (fun p => p.2.participants)).Pairwise (fun u v => ∀ x ∈ u, x ∉ v) →
    (get_student_activities st E).length ≤ 1 := by
  intro st
  induction st with
  | nil => intro _; simp [get_student_activities]
  | cons p t ih =>
    intro hd
    rw [List.map_cons, List.pairwise_cons] at hd
    rw [get_student_activities_cons, List.length_append]
    by_cases hE : E ∈ p.2.participants
    · rw [if_pos hE]
      have ht : get_student_activities t E = [] := by
        unfold get_student_activities
        rw [List.filter_eq_nil_iff.mpr, List.map_nil]
        intro q hq
        simp only [decide_eq_true_eq]
        exact hd.1 q.2.participants (List.mem_map_of_mem _ hq) E hE
      rw [ht]
      simp
    · rw [if_neg hE]
      simp only [List.length_nil, Nat.zero_add]
      exact ih hd.2

theorem seed_enrollment_invariant : enrollmentInvariant activities := by
  intro E
  have h1 : (get_student_activities activities E).length ≤ 1 :=
    gsa_length_le_one E activities (by decide)
  constructor
  · exact le_trans h1 (by norm_num)
  · intro c
    unfold categoryCount
    exact le_trans (List.length_filter_le _ _) h1

end MHS

namespace MHS

/-- C1: for every catalog state whose keys all carry a category, every
activity name that is a key, and every email that is not yet a participant
of that activity, is enrolled in fewer than 3 activities, and has no
enrolled activity of the same category, `signup_for_activity` succeeds,
appends the email at the end of the participant list (signup order), and
returns a confirmation message containing the email and the activity
name. -/
theorem signup_success (st : State) (A e : String) (act : Activity)
    (hcats : ∀ p ∈ st, (activity_categories p.1).isSome)
    (hlook : st.lookup A = some act)
    (hmem : e ∉ act.participants)
    (hlen : (get_student_activities st e).length < 3)
    (hcat : ∀ a ∈ get_student_activities st e,
      activity_categories a ≠ activity_categories A) :
    signup_for_activity st A e =
      Except.ok (setParticipants st A (act.participants ++ [e]), signupMsg e A) ∧
    participantsOf (setParticipants st A (act.participants ++ [e])) A =
      act.participants ++ [e] ∧
    (∃ p q, signupMsg e A = p ++ e ++ q) ∧
    (∃ p q, signupMsg e A = p ++ A ++ q) := by
  have hy : (activity_categories A).isSome := hcats (A, act) (lookup_some_mem hlook)
  obtain ⟨cA, hcA⟩ := Option.isSome_iff_exists.mp hy
  have hcat' : ∀ a ∈ get_student_activities st e, activity_categories a ≠ some cA := by
    intro a ha hEq
    exact hcat a ha (by rw [hEq, hcA])
  refine ⟨signup_ok_equation st A e act cA hlook hmem hlen hcA
    (checkCategory_ok_from st e cA hcats hcat'), ?_, ?_, ?_⟩
  · unfold participantsOf
    rw [lookup_setParticipants_self _ hlook]
    rfl
  · exact ⟨"Signed up ", " for " ++ A, by simp [signupMsg, String.append_assoc]⟩
  · exact ⟨"Signed up " ++ e ++ " for ", "", by simp [signupMsg, String.append_assoc]⟩

/-- Witness for C1: signing up a fresh email for the seeded (empty)
Book Club succeeds and appends it. -/
theorem signup_success_witness :
    signup_for_activity activities "Book Club" "test@mergington.edu" =
      Except.ok (setParticipants activities "Book Club"
        (bookClub.participants ++ ["test@mergington.edu"]),
        signupMsg "test@mergington.edu" "Book Club") ∧
    participantsOf (setParticipants activities "Book Club"
      (bookClub.participants ++ ["test@mergington.edu"])) "Book Club" =
      bookClub.participants ++ ["test@mergington.edu"] ∧
    (∃ p q, signupMsg "test@mergington.edu" "Book Club" =
      p ++ "test@mergington.edu" ++ q) ∧
    (∃ p q, signupMsg "test@mergington.edu" "Book Club" = p ++ "Book Club" ++ q) :=
  signup_success activities "Book Club" "test@mergington.edu" bookClub
    (by decide) (by decide) (by decide) (by decide) (by decide)

/-- C2: `signup_for_activity` performs no capacity check: when the
activity is already at or over `max_participants` and the other signup
preconditions hold, the signup still succeeds and appends the email, so
the participant count strictly exceeds `max_participants` afterwards. -/
theorem signup_ignores_capacity (st : State) (A e : String) (act : Activity)
    (hcats : ∀ p ∈ st, (activity_categories p.1).isSome)
    (hlook : st.lookup A = some act)
    (hcap : act.max_participants ≤ act.participants.length)
    (hmem : e ∉ act.participants)
    (hlen : (get_student_activities st e).length < 3)
    (hcat : ∀ a ∈ get_student_activities st e,
      activity_categories a ≠ activity_categories A) :
    signup_for_activity st A e =
      Except.ok (setParticipants st A (act.participants ++ [e]), signupMsg e A) ∧
    participantsOf (setParticipants st A (act.participants ++ [e])) A =
      act.participants ++ [e] ∧
    act.max_participants < (act.participants ++ [e]).length := by
  have hy : (activity_categories A).isSome := hcats (A, act) (lookup_some_mem hlook)
  obtain ⟨cA, hcA⟩ := Option.isSome_iff_exists.mp hy
  have hcat' : ∀ a ∈ get_student_activities st e, activity_categories a ≠ some cA := by
    intro a ha hEq
    exact hcat a ha (by rw [hEq, hcA])
  refine ⟨signup_ok_equation st A e act cA hlook hmem hlen hcA
    (checkCategory_ok_from st e cA hcats hcat'), ?_, ?_⟩
  · unfold participantsOf
    rw [lookup_setParticipants_self _ hlook]
    rfl
  · rw [List.length_append]
    exact Nat.lt_succ_of_le hcap

/-- Witness for C2: with Book Club filled to its capacity of 15, a fresh
signup still succeeds, giving 16 > 15 participants. -/
theorem signup_ignores_capacity_witness :
    signup_for_activity fullBookClubState "Book Club" "test@mergington.edu" =
      Except.ok (setParticipants fullBookClubState "Book Club"
        (fullBookClub.participants ++ ["test@mergington.edu"]),
        signupMsg "test@mergington.edu" "Book Club") ∧
    participantsOf (setParticipants fullBookClubState "Book Club"
      (fullBookClub.participants ++ ["test@mergington.edu"])) "Book Club" =
      fullBookClub.participants ++ ["test@mergington.edu"] ∧
    fullBookClub.max_participants <
      (fullBookClub.participants ++ ["test@mergington.edu"]).length :=
  signup_ignores_capacity fullBookClubState "Book Club" "test@mergington.edu"
    fullBookClub (by decide) (by decide) (by decide) (by decide) (by decide) (by decide)

/-- C3: when the activity exists, the email is not yet a participant of
it, and the email is already enrolled in at least 3 activities,
`signup_for_activity` fails with status 400 and the enrollment-limit
message, with no condition on the categories involved. -/
theorem signup_enrollment_limit (st : State) (A e : String) (act : Activity)
    (hlook : st.lookup A = some act)
    (hmem : e ∉ act.participants)
    (hlen : 3 ≤ (get_student_activities st e).length) :
    signup_for_activity st A e = Except.error ⟨400, enrollmentLimitMsg⟩ := by
  unfold signup_for_activity
  simp only [hlook, if_neg hmem, if_pos hlen]

/-- Witness for C3: an email enrolled in Chess Club, Programming Class and
Art Club (three different categories) is refused a fourth signup. -/
theorem signup_enrollment_limit_witness :
    signup_for_activity threeEnrolledState "Debate Team" "kate@mergington.edu" =
      Except.error ⟨400, enrollmentLimitMsg⟩ :=
  signup_enrollment_limit threeEnrolledState "Debate Team" "kate@mergington.edu"
    debateTeam (by decide) (by decide) (by decide)

/-- C4: when the activity exists, the email is not yet a participant,
fewer than 3 activities are joined, and the first enrolled activity (in
catalog iteration order) whose category equals that of the target is
`first`, `signup_for_activity` fails with status 400 and a message naming
`first` and the shared category. -/
theorem signup_category_conflict (st : State) (A e cA first : String) (act : Activity)
    (hcats : ∀ p ∈ st, (activity_categories p.1).isSome)
    (hlook : st.lookup A = some act)
    (hmem : e ∉ act.participants)
    (hlen : (get_student_activities st e).length < 3)
    (hcA : activity_categories A = some cA)
    (hfind : (get_student_activities st e).find?
      (fun a => activity_categories a == some cA) = some first) :
    signup_for_activity st A e = Except.error ⟨400, categoryConflictMsg first cA⟩ ∧
    (∃ p q, categoryConflictMsg first cA = p ++ first ++ q) ∧
    (∃ p q, categoryConflictMsg first cA = p ++ cA ++ q) := by
  have hsome : ∀ a ∈ get_student_activities st e, (activity_categories a).isSome := by
    intro a ha
    obtain ⟨act', hmem', _⟩ := mem_get_student_activities ha
    exact hcats (a, act') hmem'
  have hchk := checkCategory_conflict hsome hfind
  refine ⟨?_, ?_, ?_⟩
  · unfold signup_for_activity
    simp only [hlook, if_neg hmem, if_neg (Nat.not_le_of_lt hlen), hcA, hchk]
  · exact ⟨"Student is already enrolled in \x27",
      "\x27 which is in the same category (" ++ cA ++
        "). Cannot enroll in multiple programs of the same type.",
      by simp [categoryConflictMsg, String.append_assoc]⟩
  · exact ⟨"Student is already enrolled in \x27" ++ first ++
      "\x27 which is in the same category (",
      "). Cannot enroll in multiple programs of the same type.",
      by simp [categoryConflictMsg, String.append_assoc]⟩

/-- Witness for C4: `michael@mergington.edu` is in Chess Club (Sports);
signing up for Soccer Team (Sports) is refused with a message naming
Chess Club and Sports. -/
theorem signup_category_conflict_witness :
    signup_for_activity activities "Soccer Team" "michael@mergington.edu" =
      Except.error ⟨400, categoryConflictMsg "Chess Club" "Sports"⟩ ∧
    (∃ p q, categoryConflictMsg "Chess Club" "Sports" = p ++ "Chess Club" ++ q) ∧
    (∃ p q, categoryConflictMsg "Chess Club" "Sports" = p ++ "Sports" ++ q) :=
  signup_category_conflict activities "Soccer Team" "michael@mergington.edu"
    "Sports" "Chess Club" soccerTeam
    (by decide) (by decide) (by decide) (by decide) (by decide) (by decide)

/-- C5: when the email is already a participant of an existing activity —
either directly, or because the state is the result of a successful
signup of that (activity, email) pair — `signup_for_activity` fails with
status 400 and the duplicate-signup message. -/
theorem signup_duplicate_conflict (st prev : State) (A e msg : String) (act : Activity)
    (hlook : st.lookup A = some act)
    (h : e ∈ act.participants ∨ signup_for_activity prev A e = Except.ok (st, msg)) :
    signup_for_activity st A e =
      Except.error ⟨400, "Student already signed up for this activity"⟩ := by
  have hmem : e ∈ act.participants := by
    rcases h with h | h
    · exact h
    · obtain ⟨act₀, cA, hlook₀, _, _, _, _, hst, _⟩ := signup_ok_inversion h
      have hsp := lookup_setParticipants_self (act₀.participants ++ [e]) hlook₀
      rw [← hst, hlook] at hsp
      cases hsp
      simp
  unfold signup_for_activity
  simp only [hlook, if_pos hmem]

/-- Witness for C5: a seeded Chess Club member is refused a duplicate
signup, and a repeated Book Club signup right after a successful one is
refused as well. -/
theorem signup_duplicate_conflict_witness :
    signup_for_activity activities "Chess Club" "michael@mergington.edu" =
      Except.error ⟨400, "Student already signed up for this activity"⟩ ∧
    signup_for_activity bookClubSignedState "Book Club" "test@mergington.edu" =
      Except.error ⟨400, "Student already signed up for this activity"⟩ :=
  ⟨signup_duplicate_conflict activities activities "Chess Club"
      "michael@mergington.edu" "" chessClub (by decide) (Or.inl (by decide)),
   signup_duplicate_conflict bookClubSignedState activities "Book Club"
      "test@mergington.edu" (signupMsg "test@mergington.edu" "Book Club")
      bookClubSigned (by decide) (Or.inr (by decide))⟩

/-- C6: when the activity name is not a catalog key, both
`signup_for_activity` and `remove_from_activity` fail with status 404 and
detail "Activity not found". -/
theorem unknown_activity_404 (st : State) (A e : String)
    (h : A ∉ st.map Prod.fst) :
    signup_for_activity st A e = Except.error ⟨404, "Activity not found"⟩ ∧
    remove_from_activity st A e = Except.error ⟨404, "Activity not found"⟩ := by
  have hl : st.lookup A = none := lookup_none_of_not_mem_keys h
  constructor
  · unfold signup_for_activity; rw [hl]
  · unfold remove_from_activity; rw [hl]

/-- Witness for C6: "Dance Team" is not in the seed catalog; both
endpoints return 404 for it. -/
theorem unknown_activity_404_witness :
    signup_for_activity activities "Dance Team" "test@mergington.edu" =
      Except.error ⟨404, "Activity not found"⟩ ∧
    remove_from_activity activities "Dance Team" "test@mergington.edu" =
      Except.error ⟨404, "Activity not found"⟩ :=
  unknown_activity_404 activities "Dance Team" "test@mergington.edu" (by decide)

/-- C7: for an existing activity, `remove_from_activity` fails with
status 400 and the not-signed-up message when the email is absent; when
the email is present it succeeds, the stored list becomes the original
with the first occurrence of the email erased, and — lists without
duplicates — the email is absent afterwards. -/
theorem remove_spec (st : State) (A e : String) (act : Activity)
    (hlook : st.lookup A = some act) :
    (e ∉ act.participants →
      remove_from_activity st A e =
        Except.error ⟨400, "Student is not signed up for this activity"⟩) ∧
    (e ∈ act.participants →
      remove_from_activity st A e =
        Except.ok (setParticipants st A (act.participants.erase e), removeMsg e A) ∧
      participantsOf (setParticipants st A (act.participants.erase e)) A =
        act.participants.erase e ∧
      (act.participants.Nodup → e ∉ act.participants.erase e)) := by
  constructor
  · intro hmem
    unfold remove_from_activity
    simp only [hlook, if_neg hmem]
  · intro hmem
    refine ⟨?_, ?_, ?_⟩
    · unfold remove_from_activity
      simp only [hlook, if_pos hmem]
    · unfold participantsOf
      rw [lookup_setParticipants_self _ hlook]
      rfl
    · intro hnd
      exact List.Nodup.not_mem_erase hnd

/-- Witness for C7: removing an absent email from Chess Club returns 400;
removing the seeded member `michael@mergington.edu` succeeds and leaves
the email absent. -/
theorem remove_spec_witness :
    remove_from_activity activities "Chess Club" "test@mergington.edu" =
      Except.error ⟨400, "Student is not signed up for this activity"⟩ ∧
    (remove_from_activity activities "Chess Club" "michael@mergington.edu" =
      Except.ok (setParticipants activities "Chess Club"
        (chessClub.participants.erase "michael@mergington.edu"),
        removeMsg "michael@mergington.edu" "Chess Club") ∧
     participantsOf (setParticipants activities "Chess Club"
       (chessClub.participants.erase "michael@mergington.edu")) "Chess Club" =
       chessClub.participants.erase "michael@mergington.edu" ∧
     (chessClub.participants.Nodup →
       "michael@mergington.edu" ∉
         chessClub.participants.erase "michael@mergington.edu")) :=
  ⟨(remove_spec activities "Chess Club" "test@mergington.edu" chessClub
      (by decide)).1 (by decide),
   (remove_spec activities "Chess Club" "michael@mergington.edu" chessClub
      (by decide)).2 (by decide)⟩

/-- C8: after any successful signup, removing the same (activity, email)
pair succeeds, restores the participant list of that activity to its
value before the signup (hence its count), and leaves the email absent. -/
theorem signup_remove_roundtrip (st st' : State) (A e msg : String)
    (h : signup_for_activity st A e = Except.ok (st', msg)) :
    ∃ st'', remove_from_activity st' A e = Except.ok (st'', removeMsg e A) ∧
      participantsOf st'' A = participantsOf st A ∧
      (participantsOf st'' A).length = (participantsOf st A).length ∧
      e ∉ participantsOf st'' A := by
  obtain ⟨act, cA, hlook, hmem, _, _, _, hst, _⟩ := signup_ok_inversion h
  have hlook' := lookup_setParticipants_self (act.participants ++ [e]) hlook
  rw [← hst] at hlook'
  have hemem : e ∈ ({ act with participants := act.participants ++ [e] } :
      Activity).participants := by simp
  refine ⟨setParticipants st' A ((act.participants ++ [e]).erase e), ?_, ?_, ?_, ?_⟩
  · unfold remove_from_activity
    simp only [hlook', if_pos hemem]
  · unfold participantsOf
    rw [lookup_setParticipants_self _ hlook', hlook]
    simp [erase_append_singleton_self hmem]
  · unfold participantsOf
    rw [lookup_setParticipants_self _ hlook', hlook]
    simp [erase_append_singleton_self hmem]
  · unfold participantsOf
    rw [lookup_setParticipants_self _ hlook']
    show e ∉ (act.participants ++ [e]).erase e
    rw [erase_append_singleton_self hmem]
    exact hmem

/-- Witness for C8: signing `test@mergington.edu` into Book Club and
removing them again restores the (empty) participant list. -/
theorem signup_remove_roundtrip_witness :
    ∃ st'', remove_from_activity bookClubSignedState "Book Club"
        "test@mergington.edu" =
      Except.ok (st'', removeMsg "test@mergington.edu" "Book Club") ∧
      participantsOf st'' "Book Club" = participantsOf activities "Book Club" ∧
      (participantsOf st'' "Book Club").length =
        (participantsOf activities "Book Club").length ∧
      "test@mergington.edu" ∉ participantsOf st'' "Book Club" :=
  signup_remove_roundtrip activities bookClubSignedState "Book Club"
    "test@mergington.edu" (signupMsg "test@mergington.edu" "Book Club") (by decide)

/-- C9: in every state reachable from the seed by signup and remove
calls, no participant list contains the same email twice; moreover each
single call preserves this property from any state satisfying it. -/
theorem per_activity_uniqueness :
    (∀ ops : List Op, ∀ p ∈ runOps activities ops, p.2.participants.Nodup) ∧
    (∀ (st : State) (op : Op), (∀ p ∈ st, p.2.participants.Nodup) →
      ∀ p ∈ applyOp st op, p.2.participants.Nodup) := by
  constructor
  · intro ops p hp
    exact runOps_nodup ops activities (by decide) p hp
  · intro st op h p hp
    exact applyOp_nodup op h p hp

/-- Witness for C9: the Book Club list after one signup, and the seeded
Chess Club list after a removal attempt on an unknown activity, are
duplicate-free. -/
theorem per_activity_uniqueness_witness :
    (["test@mergington.edu"] : List String).Nodup ∧
    (["michael@mergington.edu", "daniel@mergington.edu"] : List String).Nodup :=
  ⟨per_activity_uniqueness.1 [Op.signup "Book Club" "test@mergington.edu"]
      ("Book Club", bookClubSigned) (by decide),
   per_activity_uniqueness.2 activities (Op.remove "Dance Team" "x@mergington.edu")
      (by decide) ("Chess Club", chessClub) (by decide)⟩

/-- C10: every state reachable from the seed by signup and remove calls
satisfies the enrollment rules: each email is in at most 3 activities and
in at most one activity of each category. -/
theorem reachable_enrollment_invariant (ops : List Op) :
    enrollmentInvariant (runOps activities ops) :=
  runOps_invariant ops activities (by decide) seed_enrollment_invariant

end MHS
